import Mathlib

/-!
Verification development for the `cursor-subagent-mcp` executor core
(`src/cursor_subagent_mcp/executor/`): a shallow embedding, in Lean, of

  - `models.py`   (`StreamEvent`, `ExecutionResult`, `StreamEvent.from_json`),
  - `utils.py`    (`extract_final_json` and the regex searches it performs),
  - `runner.py`   (the per-line stream-processing loop of `invoke_cursor_agent`,
                   its result builder / success classifier, and its
                   timeout / unexpected-exception handlers),

together with theorems about the embedded definitions.

Modelling conventions:
  - Python values that can arise from `json.loads` (and Python `None`, which is
    exactly the image of JSON `null`) are represented by `JsonValue`.  JSON
    numbers keep their source lexeme verbatim; no claim below compares numbers
    across spellings.
  - Python dicts produced by `json.loads` are association lists in insertion
    order; duplicate keys resolve to the last binding, as in CPython.
  - Raising Python code is embedded in `Except`/`Option` results; a function
    that the source code cannot observe raising is embedded as total.
  - Strings are treated as sequences of code points (`List Char`), matching
    Python `len`/indexing on `str`.  `\x7b`/`\x7d` denote the brace characters.
-/

/-- The set of Python values reachable from `json.loads`, plus Python `None`
(identified with JSON `null`, its exact preimage). Numbers carry their lexeme. -/
inductive JsonValue where
  | null
  | bool (b : Bool)
  | num (lexeme : String)
  | str (s : String)
  | arr (elems : List JsonValue)
  | obj (members : List (String × JsonValue))

/-- Python `\s` / `str.strip` whitespace, restricted to ASCII (all inputs in
this development are ASCII). -/
def pyWsChar (c : Char) : Bool :=
  c = ' ' || c = '\t' || c = '\n' || c = '\r' || c = '\x0b' || c = '\x0c'

/-- `str.strip()` on a character list: drop whitespace from both ends. -/
def stripList (cs : List Char) : List Char :=
  ((cs.dropWhile pyWsChar).reverse.dropWhile pyWsChar).reverse

/-- Python `str.strip()`. -/
def pyStrip (s : String) : String :=
  String.mk (stripList s.data)

/-- Python `str.lower()` (ASCII). -/
def pyLower (s : String) : String :=
  String.mk (s.data.map Char.toLower)

/-- Index of the first occurrence of `needle` in `cs`, if any. -/
def findSubIdx (needle : List Char) : List Char → Option Nat
  | [] => if needle.isPrefixOf ([] : List Char) then some 0 else none
  | c :: t =>
    if needle.isPrefixOf (c :: t) then some 0
    else (findSubIdx needle t).map (· + 1)

/-- Python `needle in hay` on strings (substring containment). -/
def hasSubstr (hay needle : String) : Bool :=
  (findSubIdx needle.data hay.data).isSome

/-- `'0' ≤ c ≤ '9'`. -/
def isJsonDigit (c : Char) : Bool :=
  '0' ≤ c && c ≤ '9'

/-- Value of one hexadecimal digit (both letter cases accepted). -/
def hexVal (c : Char) : Option Nat :=
  let n := c.toNat
  if 48 ≤ n ∧ n ≤ 57 then some (n - 48)
  else if 97 ≤ n ∧ n ≤ 102 then some (n - 87)
  else if 65 ≤ n ∧ n ≤ 70 then some (n - 55)
  else none

/-- Body of a JSON string literal, after the opening quote: returns the decoded
characters and the input remaining after the closing quote.  Mirrors the
strict-mode CPython `json` scanner: raw control characters are rejected, the
short escapes and `\uXXXX` are accepted. -/
def parseStringBody : Nat → List Char → Option (List Char × List Char)
  | 0, _ => none
  | Nat.succ fuel, cs =>
    match cs with
    | [] => none
    | '"' :: rest => some ([], rest)
    | '\\' :: esc =>
      match esc with
      | '"' :: rest => (parseStringBody fuel rest).map (fun r => ('"' :: r.1, r.2))
      | '\\' :: rest => (parseStringBody fuel rest).map (fun r => ('\\' :: r.1, r.2))
      | '/' :: rest => (parseStringBody fuel rest).map (fun r => ('/' :: r.1, r.2))
      | 'b' :: rest => (parseStringBody fuel rest).map (fun r => ('\x08' :: r.1, r.2))
      | 'f' :: rest => (parseStringBody fuel rest).map (fun r => ('\x0c' :: r.1, r.2))
      | 'n' :: rest => (parseStringBody fuel rest).map (fun r => ('\n' :: r.1, r.2))
      | 'r' :: rest => (parseStringBody fuel rest).map (fun r => ('\r' :: r.1, r.2))
      | 't' :: rest => (parseStringBody fuel rest).map (fun r => ('\t' :: r.1, r.2))
      | 'u' :: h1 :: h2 :: h3 :: h4 :: rest =>
        match hexVal h1, hexVal h2, hexVal h3, hexVal h4 with
        | some a, some b, some c, some d =>
          (parseStringBody fuel rest).map
            (fun r => (Char.ofNat (((a * 16 + b) * 16 + c) * 16 + d) :: r.1, r.2))
        | _, _, _, _ => none
      | _ => none
    | c :: rest =>
      if c.toNat < 32 then none
      else (parseStringBody fuel rest).map (fun r => (c :: r.1, r.2))

/-- Optional fraction part `.digits` of a JSON number; returns its lexeme. -/
def parseFrac (cs : List Char) : Option (List Char × List Char) :=
  match cs with
  | '.' :: t =>
    match t.takeWhile isJsonDigit with
    | [] => none
    | ds => some ('.' :: ds, t.dropWhile isJsonDigit)
  | _ => some ([], cs)

/-- Optional exponent part `[eE][+-]?digits` of a JSON number. -/
def parseExp (cs : List Char) : Option (List Char × List Char) :=
  match cs with
  | e :: t =>
    if e = 'e' || e = 'E' then
      let (sgn, t2) :=
        match t with
        | '+' :: u => (['+'], u)
        | '-' :: u => (['-'], u)
        | _ => (([] : List Char), t)
      match t2.takeWhile isJsonDigit with
      | [] => none
      | ds => some (e :: sgn ++ ds, t2.dropWhile isJsonDigit)
    else some ([], e :: t)
  | [] => some ([], [])

/-- Fraction and exponent after the integer part of a JSON number. -/
def parseNumberAfterInt (lexeme : List Char) (cs : List Char) :
    Option (List Char × List Char) :=
  match parseFrac cs with
  | none => none
  | some (fr, r1) =>
    match parseExp r1 with
    | none => none
    | some (ex, r2) => some (lexeme ++ fr ++ ex, r2)

/-- JSON number: `-? (0 | [1-9][0-9]*) frac? exp?`; returns the lexeme. -/
def parseNumber (cs : List Char) : Option (List Char × List Char) :=
  let (neg, cs1) :=
    match cs with
    | '-' :: t => ((['-'] : List Char), t)
    | _ => (([] : List Char), cs)
  match cs1 with
  | '0' :: t => parseNumberAfterInt (neg ++ ['0']) t
  | c :: t =>
    if isJsonDigit c && !(c = '0') then
      parseNumberAfterInt (neg ++ c :: t.takeWhile isJsonDigit) (t.dropWhile isJsonDigit)
    else none
  | [] => none

mutual

/-- One JSON value (with leading whitespace), CPython `json` grammar including
the `NaN`/`Infinity`/`-Infinity` constants accepted by default. -/
def parseVal : Nat → List Char → Option (JsonValue × List Char)
  | 0, _ => none
  | Nat.succ fuel, cs0 =>
    match cs0.dropWhile pyWsChar with
    | [] => none
    | '\x7b' :: t => parseObjRest fuel t
    | '[' :: t => parseArrRest fuel t
    | '"' :: t =>
      (parseStringBody (t.length + 1) t).map (fun r => (JsonValue.str (String.mk r.1), r.2))
    | 't' :: t =>
      if ['r', 'u', 'e'].isPrefixOf t then some (JsonValue.bool true, t.drop 3) else none
    | 'f' :: t =>
      if ['a', 'l', 's', 'e'].isPrefixOf t then some (JsonValue.bool false, t.drop 4) else none
    | 'n' :: t =>
      if ['u', 'l', 'l'].isPrefixOf t then some (JsonValue.null, t.drop 3) else none
    | 'N' :: t =>
      if ['a', 'N'].isPrefixOf t then some (JsonValue.num "NaN", t.drop 2) else none
    | 'I' :: t =>
      if "nfinity".data.isPrefixOf t then some (JsonValue.num "Infinity", t.drop 7) else none
    | '-' :: t =>
      if "Infinity".data.isPrefixOf t then some (JsonValue.num "-Infinity", t.drop 8)
      else (parseNumber ('-' :: t)).map (fun r => (JsonValue.num (String.mk r.1), r.2))
    | c :: t =>
      if isJsonDigit c then (parseNumber (c :: t)).map (fun r => (JsonValue.num (String.mk r.1), r.2))
      else none

/-- Key/value member of a JSON object. -/
def parsePair : Nat → List Char → Option ((String × JsonValue) × List Char)
  | 0, _ => none
  | Nat.succ fuel, cs =>
    match cs.dropWhile pyWsChar with
    | '"' :: t =>
      match parseStringBody (t.length + 1) t with
      | some (k, r1) =>
        match r1.dropWhile pyWsChar with
        | ':' :: r2 => (parseVal fuel r2).map (fun v => ((String.mk k, v.1), v.2))
        | _ => none
      | none => none
    | _ => none

/-- Object body after the opening brace. -/
def parseObjRest : Nat → List Char → Option (JsonValue × List Char)
  | 0, _ => none
  | Nat.succ fuel, cs =>
    match cs.dropWhile pyWsChar with
    | '\x7d' :: t => some (JsonValue.obj [], t)
    | _ =>
      match parsePair fuel cs with
      | some (p, r) => parseMembersRest fuel [p] r
      | none => none

/-- Object members after the first pair (`acc` holds parsed pairs reversed). -/
def parseMembersRest : Nat → List (String × JsonValue) → List Char →
    Option (JsonValue × List Char)
  | 0, _, _ => none
  | Nat.succ fuel, acc, cs =>
    match cs.dropWhile pyWsChar with
    | '\x7d' :: t => some (JsonValue.obj acc.reverse, t)
    | ',' :: t =>
      match parsePair fuel t with
      | some (p, r) => parseMembersRest fuel (p :: acc) r
      | none => none
    | _ => none

/-- Array body after the opening bracket. -/
def parseArrRest : Nat → List Char → Option (JsonValue × List Char)
  | 0, _ => none
  | Nat.succ fuel, cs =>
    match cs.dropWhile pyWsChar with
    | ']' :: t => some (JsonValue.arr [], t)
    | _ =>
      match parseVal fuel cs with
      | some (v, r) => parseElemsRest fuel [v] r
      | none => none

/-- Array elements after the first one (`acc` holds parsed elements reversed). -/
def parseElemsRest : Nat → List JsonValue → List Char → Option (JsonValue × List Char)
  | 0, _, _ => none
  | Nat.succ fuel, acc, cs =>
    match cs.dropWhile pyWsChar with
    | ']' :: t => some (JsonValue.arr acc.reverse, t)
    | ',' :: t =>
      match parseVal fuel t with
      | some (v, r) => parseElemsRest fuel (v :: acc) r
      | none => none
    | _ => none

end

/-- Model of Python `json.loads`: parse one value, then accept only if the
remaining input is whitespace.  `none` models `json.JSONDecodeError`.  The fuel
`2 * length + 8` dominates the recursion depth (at most two calls per consumed
character, as in `[[[...`). -/
def pyJsonLoads (s : String) : Option JsonValue :=
  match parseVal (2 * s.data.length + 8) s.data with
  | some (v, rest) => if rest.all pyWsChar then some v else none
  | none => none

/-- Length of the maximal whitespace prefix (candidate lengths for greedy `\s*`). -/
def wsRun (cs : List Char) : Nat :=
  (cs.takeWhile pyWsChar).length

/-- The characters of `"\n```"`, the closing delimiter of a fenced block. -/
def nlFence : List Char :=
  "\n```".data

/-- Backtracking tail of the fenced-block patterns, matched after the opening
literal: regex `\s*\n(.*?)\n``` ` with `re.DOTALL`.  The greedy `\s*` tries the
longest whitespace prefix first and backtracks; for each split the lazy `(.*?)`
takes the earliest following `"\n```"`.  Returns the captured group and the
total number of characters consumed. -/
def matchFenceTail (rest : List Char) : Option (List Char × Nat) :=
  ((List.range (wsRun rest + 1)).reverse).findSome? (fun k =>
    if rest.get? k = some '\n' then
      match findSubIdx nlFence (rest.drop (k + 1)) with
      | some m => some ((rest.drop (k + 1)).take m, k + 1 + m + 4)
      | none => none
    else none)

/-- Anchored match of `re.compile(r"```json\s*\n(.*?)\n```", re.DOTALL)`:
captured group and total match length. -/
def matchJsonFenceAt (cs : List Char) : Option (List Char × Nat) :=
  if "```json".data.isPrefixOf cs then
    (matchFenceTail (cs.drop 7)).map (fun r => (r.1, 7 + r.2))
  else none

/-- Anchored match of `re.compile(r"```\s*\n(.*?)\n```", re.DOTALL)`. -/
def matchPlainFenceAt (cs : List Char) : Option (List Char × Nat) :=
  if "```".data.isPrefixOf cs then
    (matchFenceTail (cs.drop 3)).map (fun r => (r.1, 3 + r.2))
  else none

/-- Scan after an opening delimiter for the patterns
`\x7b[^\x7b\x7d]*(?:\x7b[^\x7b\x7d]*\x7d[^\x7b\x7d]*)*\x7d` (and the bracket
analogue): consume non-delimiter characters and complete depth-one groups; a
nested opener at depth one kills the whole anchored match, exactly as the
backtracking regex fails there.  Returns the number of characters up to and
including the closing delimiter. -/
def delimScan (op cl : Char) : List Char → Bool → Option Nat
  | [], _ => none
  | x :: t, insideGroup =>
    if x = op then
      if insideGroup then none else (delimScan op cl t true).map (· + 1)
    else if x = cl then
      if insideGroup then (delimScan op cl t false).map (· + 1) else some 1
    else (delimScan op cl t insideGroup).map (· + 1)

/-- Anchored match of the brace/bracket pattern: full match and its length
(these patterns have no capture group, so `findall` collects full matches). -/
def matchDelimAt (op cl : Char) (cs : List Char) : Option (List Char × Nat) :=
  match cs with
  | x :: t =>
    if x = op then (delimScan op cl t false).map (fun n => (cs.take (n + 1), n + 1))
    else none
  | [] => none

/-- `re.findall` scanning: try an anchored match at each position, left to
right; on success emit the capture and resume after the match, otherwise
advance one character.  All patterns here match at least one character. -/
def findallAux (matchAt : List Char → Option (List Char × Nat)) :
    Nat → List Char → List (List Char)
  | 0, _ => []
  | Nat.succ _, [] => []
  | Nat.succ fuel, c :: t =>
    match matchAt (c :: t) with
    | some (g, len) => g :: findallAux matchAt fuel ((c :: t).drop (max len 1))
    | none => findallAux matchAt fuel t

/-- `re.findall(pattern, cs)` for an anchored matcher. -/
def pyFindall (matchAt : List Char → Option (List Char × Nat)) (cs : List Char) :
    List (List Char) :=
  findallAux matchAt cs.length cs

/-- `json_block_pattern.findall(text)`: contents of ```` ```json ```` fences. -/
def jsonBlockFindall (cs : List Char) : List (List Char) :=
  pyFindall matchJsonFenceAt cs

/-- `code_block_pattern.findall(text)`: contents of unlabeled ```` ``` ```` fences. -/
def codeBlockFindall (cs : List Char) : List (List Char) :=
  pyFindall matchPlainFenceAt cs

/-- `json_object_pattern.findall(text)`: brace-delimited candidates. -/
def objectFindall (cs : List Char) : List (List Char) :=
  pyFindall (matchDelimAt '\x7b' '\x7d') cs

/-- `json_array_pattern.findall(text)`: bracket-delimited candidates. -/
def arrayFindall (cs : List Char) : List (List Char) :=
  pyFindall (matchDelimAt '[' ']') cs

/-- Tier 1 of `extract_final_json`: if any ```` ```json ```` block exists,
validate only the last one; return it stripped if it parses, else fail the
tier (the `except` clause falls through without trying earlier blocks). -/
def tierJsonBlocks (cs : List Char) : Option String :=
  match (jsonBlockFindall cs).getLast? with
  | some g =>
    if (pyJsonLoads (String.mk g)).isSome then some (String.mk (stripList g)) else none
  | none => none

/-- Tier 2: last unlabeled fenced block whose stripped content parses as a
JSON object or array. -/
def tierCodeBlocks (cs : List Char) : Option String :=
  ((codeBlockFindall cs).reverse).findSome? (fun m =>
    match pyJsonLoads (String.mk (stripList m)) with
    | some (JsonValue.obj _) => some (String.mk (stripList m))
    | some (JsonValue.arr _) => some (String.mk (stripList m))
    | _ => none)

/-- Tier 3: last brace-pattern candidate that parses as JSON. -/
def tierObjects (cs : List Char) : Option String :=
  ((objectFindall cs).reverse).findSome? (fun m =>
    if (pyJsonLoads (String.mk m)).isSome then some (String.mk (stripList m)) else none)

/-- Tier 4: last bracket-pattern candidate that parses as JSON. -/
def tierArrays (cs : List Char) : Option String :=
  ((arrayFindall cs).reverse).findSome? (fun m =>
    if (pyJsonLoads (String.mk m)).isSome then some (String.mk (stripList m)) else none)

/-- `extract_final_json` from `executor/utils.py`: empty text yields nothing;
otherwise the four tiers run in order and the first tier producing a validated
candidate wins. -/
def extract_final_json (text : String) : Option String :=
  if text.data = [] then none
  else
    match tierJsonBlocks text.data with
    | some r => some r
    | none =>
      match tierCodeBlocks text.data with
      | some r => some r
      | none =>
        match tierObjects text.data with
        | some r => some r
        | none => tierArrays text.data

/-- `StreamEvent` from `executor/models.py`.  `event_type` and `subtype` hold
whatever `data.get("type", "unknown")` / `data.get("subtype")` produced (the
dataclass does not force them to be strings); `.null` plays Python `None`. -/
structure StreamEvent where
  event_type : JsonValue
  subtype : JsonValue
  data : List (String × JsonValue)

/-- Python `d.get(key, default)` on a dict built by `json.loads`: the last
binding for a duplicated key wins, as in CPython. -/
def pyDictGet (kvs : List (String × JsonValue)) (k : String) (dflt : JsonValue) :
    JsonValue :=
  match (kvs.filter (fun p => p.1 == k)).getLast? with
  | some p => p.2
  | none => dflt

/-- Python `key in d` for a dict. -/
def pyHasKey (kvs : List (String × JsonValue)) (k : String) : Bool :=
  kvs.any (fun p => p.1 == k)

/-- `v == "lit"` in Python: true only for an equal string. -/
def JsonValue.isStrEq : JsonValue → String → Bool
  | JsonValue.str t, s => t == s
  | _, _ => false

/-- `StreamEvent.from_json` from `executor/models.py`.  Only
`json.JSONDecodeError` is caught (giving `None`, embedded `.ok none`); when the
line decodes to a non-dict, `data.get` raises an uncaught `AttributeError`,
embedded as `.error`. -/
def StreamEvent.from_json (line : String) : Except String (Option StreamEvent) :=
  match pyJsonLoads line with
  | none => Except.ok none
  | some (JsonValue.obj kvs) =>
    Except.ok (some
      { event_type := pyDictGet kvs "type" (JsonValue.str "unknown")
        subtype := pyDictGet kvs "subtype" JsonValue.null
        data := kvs })
  | some _ => Except.error "AttributeError"

/-- `ExecutionResult` from `executor/models.py` (field defaults as in the
dataclass; `.null` plays Python `None` for `session_id`/`duration_ms`). -/
structure ExecutionResult where
  success : Bool
  output : String
  error : Option String := none
  return_code : Int := 0
  events : List StreamEvent := []
  session_id : JsonValue := JsonValue.null
  duration_ms : JsonValue := JsonValue.null

/-- Python iteration `for c in content` over a `json.loads` value: lists give
elements, strings give one-character strings, dicts give keys; other values
raise `TypeError` (`none`). -/
def pyElems : JsonValue → Option (List JsonValue)
  | JsonValue.arr xs => some xs
  | JsonValue.str s => some (s.data.map (fun c => JsonValue.str (String.mk [c])))
  | JsonValue.obj kvs => some (kvs.map (fun p => JsonValue.str p.1))
  | _ => none

/-- The text fragments selected by
`(c.get("text", "") for c in content if c.get("type") == "text")` followed by
`"".join(...)`, as evaluated in `_log_event`'s assistant branch: `none`
embeds a raised exception (non-dict element, non-iterable content, or a
non-string selected `text` making `join` raise `TypeError`). -/
def selectTexts (content : JsonValue) : Option (List String) :=
  match pyElems content with
  | none => none
  | some cs => selectTextsGo cs
where
  selectTextsGo : List JsonValue → Option (List String)
  | [] => some []
  | c :: t =>
    match c with
    | JsonValue.obj kvs =>
      if (pyDictGet kvs "type" JsonValue.null).isStrEq "text" then
        match pyDictGet kvs "text" (JsonValue.str "") with
        | JsonValue.str s => (selectTextsGo t).map (fun l => s :: l)
        | _ => none
      else selectTextsGo t
    | _ => none

/-- Assistant-branch evaluation shared by `_log_event` and the collection loop
in `process_stream`: `event.data.get("message", \x7b\x7d).get("content", [])`
then the text selection.  `none` embeds the raise (caught per line). -/
def assistantTexts (data : List (String × JsonValue)) : Option (List String) :=
  match pyDictGet data "message" (JsonValue.obj []) with
  | JsonValue.obj mkvs => selectTexts (pyDictGet mkvs "content" (JsonValue.arr []))
  | _ => none

/-- Python `"key" in v`: key membership for dicts, substring test for strings,
element membership for lists; other values raise `TypeError` (`none`). -/
def pyContainsKey (v : JsonValue) (k : String) : Option Bool :=
  match v with
  | JsonValue.obj kvs => some (pyHasKey kvs k)
  | JsonValue.str s => some (hasSubstr s k)
  | JsonValue.arr xs => some (xs.any (fun x => x.isStrEq k))
  | _ => none

/-- Whether the read/write tool-call branch of `_log_event` raises: it
evaluates `tool_call[key].get("args", \x7b\x7d).get("path", "unknown")`
unconditionally and, on subtype `"completed"`, the
`.get("result", \x7b\x7d).get("success", \x7b\x7d).get(...)` chain; `.get` on
a non-dict raises `AttributeError`. -/
def toolBranchRaises (v : JsonValue) (subtype : JsonValue) : Bool :=
  match v with
  | JsonValue.obj vk =>
    match pyDictGet vk "args" (JsonValue.obj []) with
    | JsonValue.obj _ =>
      if subtype.isStrEq "started" then false
      else if subtype.isStrEq "completed" then
        match pyDictGet vk "result" (JsonValue.obj []) with
        | JsonValue.obj rk =>
          match pyDictGet rk "success" (JsonValue.obj []) with
          | JsonValue.obj _ => false
          | _ => true
        | _ => true
      else false
    | _ => true
  | _ => true

/-- Whether the `function` tool-call branch of `_log_event` raises
(`tool_call["function"].get("name", "unknown")` needs a dict). -/
def funcBranchRaises (v : JsonValue) : Bool :=
  match v with
  | JsonValue.obj _ => false
  | _ => true

/-- Whether the `tool_call` branch of `_log_event` raises, starting from
`tool_call = event.data.get("tool_call", \x7b\x7d)` and the `in` membership
chain; indexing a non-dict container with a string key raises `TypeError`. -/
def toolCallRaises (data : List (String × JsonValue)) (subtype : JsonValue) : Bool :=
  let tc := pyDictGet data "tool_call" (JsonValue.obj [])
  match pyContainsKey tc "readToolCall" with
  | none => true
  | some true =>
    match tc with
    | JsonValue.obj kvs => toolBranchRaises (pyDictGet kvs "readToolCall" JsonValue.null) subtype
    | _ => true
  | some false =>
    match pyContainsKey tc "writeToolCall" with
    | none => true
    | some true =>
      match tc with
      | JsonValue.obj kvs => toolBranchRaises (pyDictGet kvs "writeToolCall" JsonValue.null) subtype
      | _ => true
    | some false =>
      match pyContainsKey tc "function" with
      | none => true
      | some true =>
        match tc with
        | JsonValue.obj kvs => funcBranchRaises (pyDictGet kvs "function" JsonValue.null)
        | _ => true
      | some false => false

/-- Whether `_log_event(logger, event, agent_role)` raises.  The
`system`/`init` and `result` branches only call `.get` on `event.data`, which
is a dict whenever the event exists, so they never raise; logging calls
themselves are effect-free in this embedding. -/
def logEventRaises (ev : StreamEvent) : Bool :=
  if ev.event_type.isStrEq "system" && ev.subtype.isStrEq "init" then false
  else if ev.event_type.isStrEq "assistant" then (assistantTexts ev.data).isNone
  else if ev.event_type.isStrEq "tool_call" then toolCallRaises ev.data ev.subtype
  else false

/-- The accumulating state of `process_stream` in `executor/runner.py`:
`events`, `assistant_messages`, `session_id`, `duration_ms` (the latter two
are Python variables holding `None` or a value; `.null` plays `None`). -/
structure StreamState where
  events : List StreamEvent
  msgs : List String
  sessionId : JsonValue
  durationMs : JsonValue

/-- Initial accumulation state of one invocation. -/
def initStreamState : StreamState :=
  { events := [], msgs := [], sessionId := JsonValue.null, durationMs := JsonValue.null }

/-- One iteration of the `async for line in process.stdout` loop of
`process_stream`: decode+strip, skip blanks, parse; the whole body is inside
`try/except Exception: continue`, so a parse `AttributeError` or a raise in
`_log_event` drops the rest of the body for that line — but the event was
already appended before `_log_event` ran.  When `_log_event`'s assistant
branch succeeds, the collection loop below it performs the very same
evaluation, so it cannot raise and appends exactly the selected fragments. -/
def stepLine (st : StreamState) (line : String) : StreamState :=
  let ls := pyStrip line
  if ls.data = [] then st
  else
    match StreamEvent.from_json ls with
    | Except.error _ => st
    | Except.ok none => st
    | Except.ok (some ev) =>
      let st1 := { st with events := st.events ++ [ev] }
      if logEventRaises ev then st1
      else
        let st2 :=
          if ev.event_type.isStrEq "system" && ev.subtype.isStrEq "init" then
            { st1 with sessionId := pyDictGet ev.data "session_id" JsonValue.null }
          else st1
        let st3 :=
          if ev.event_type.isStrEq "assistant" then
            { st2 with msgs := st2.msgs ++ ((assistantTexts ev.data).getD []) }
          else st2
        if ev.event_type.isStrEq "result" then
          { st3 with durationMs := pyDictGet ev.data "duration_ms" JsonValue.null }
        else st3

/-- `process_stream`: fold the per-line processing over the decoded stdout
lines, in arrival order. -/
def process_stream (lines : List String) : StreamState :=
  lines.foldl stepLine initStreamState

/-- `"".join(assistant_messages)`. -/
def pyJoin (l : List String) : String :=
  String.join l

/-- `output_to_return = final_json if final_json else full_output`: the code
tests the extracted string for truthiness, so an empty extraction would also
fall back (tier validation in fact never returns an empty string). -/
def outputToReturn (full : String) : String :=
  match extract_final_json full with
  | some s => if s.data = [] then full else s
  | none => full

/-- The benign-transport-error detection of `invoke_cursor_agent`
(`runner.py`): `"Premature close"` or lower-cased `"premature close"` or
`"NGHTTP2_INTERNAL_ERROR"` in the stripped joined stderr. -/
def isPrematureClose (stderrStr : String) : Bool :=
  hasSubstr stderrStr "Premature close" ||
  hasSubstr (pyLower stderrStr) "premature close" ||
  hasSubstr stderrStr "NGHTTP2_INTERNAL_ERROR"

/-- The useful-output threshold: `len(output_to_return.strip()) > 100`. -/
def usefulOutputThreshold : Nat := 100

/-- `has_useful_output` from `runner.py`. -/
def hasUsefulOutput (out : String) : Bool :=
  decide ((pyStrip out).data.length > usefulOutputThreshold)

/-- The completion path of `invoke_cursor_agent` (`runner.py`, after the
stream has been drained and the process has exited): output selection, stderr
classification, error-message assembly, and the success classification
`returncode == 0 or (is_premature_close and has_useful_output)`. -/
def buildResult (rc : Int) (stderrChunks : List String) (streamError : Option String)
    (st : StreamState) : ExecutionResult :=
  let out := outputToReturn (pyJoin st.msgs)
  let stderrStr := pyStrip (pyJoin stderrChunks)
  let prem := isPrematureClose stderrStr
  let useful := hasUsefulOutput out
  let parts1 :=
    if stderrStr.data ≠ [] ∧ ¬(prem = true ∧ useful = true) then [stderrStr] else []
  let parts2 :=
    parts1 ++ (match streamError with
               | some e => ["Stream error: " ++ e]
               | none => [])
  let errorParts :=
    if rc ≠ 0 ∧ parts2 = [] then ["Process exited with code " ++ toString rc] else parts2
  if rc = 0 ∨ (prem = true ∧ useful = true) then
    { success := true
      output := out
      error :=
        if prem = true ∧ useful = true then none
        else if stderrStr.data = [] then none else some stderrStr
      return_code := rc
      events := st.events
      session_id := st.sessionId
      duration_ms := st.durationMs }
  else
    { success := false
      output := out
      error :=
        some (if errorParts = [] then "Process exited with code " ++ toString rc
              else String.intercalate " | " errorParts)
      return_code := rc
      events := st.events
      session_id := st.sessionId
      duration_ms := st.durationMs }

/-- The `except asyncio.TimeoutError` handler of `invoke_cursor_agent`: the
subprocess is killed and a failure result is built from the accumulated state;
the `ExecutionResult` constructor call omits `duration_ms`, which therefore
stays at its dataclass default.  `timeoutRepr` stands for the f-string
rendering of the `timeout` float. -/
def timeoutResult (timeoutRepr : String) (st : StreamState) : ExecutionResult :=
  { success := false
    output := outputToReturn (pyJoin st.msgs)
    error := some ("Execution timed out after " ++ timeoutRepr ++ " seconds")
    return_code := -1
    events := st.events
    session_id := st.sessionId }

/-- The observable outcomes of one `invoke_cursor_agent` call, abstracting the
environment: the CLI may be missing, process creation may fail, the stream may
time out after some decoded stdout lines, the run may complete with an exit
code / stderr chunks / captured stream error, or an unexpected exception may
reach the outermost handler after some lines were already consumed. -/
inductive InvocationOutcome where
  | cliNotFound
  | spawnFailed (path : String)
  | timedOut (timeoutRepr : String) (stdoutLines : List String)
  | completed (rc : Int) (stdoutLines : List String) (stderrChunks : List String)
      (streamError : Option String)
  | unexpectedError (exnText : String) (stdoutLines : List String)

/-- `invoke_cursor_agent` from `executor/runner.py` as a total function over
the invocation outcome: every path constructs and returns an
`ExecutionResult`; in particular both `except` handlers at the outer boundary
return results built only from the exception, with every other field left at
its dataclass default. -/
def invoke_cursor_agent : InvocationOutcome → ExecutionResult
  | InvocationOutcome.cliNotFound =>
    { success := false
      output := ""
      error := some "cursor-agent CLI not found. Please install Cursor CLI tools."
      return_code := -1 }
  | InvocationOutcome.spawnFailed p =>
    { success := false
      output := ""
      error := some ("Failed to execute cursor-agent at: " ++ p)
      return_code := -1 }
  | InvocationOutcome.timedOut t lines => timeoutResult t (process_stream lines)
  | InvocationOutcome.completed rc lines errs se =>
    buildResult rc errs se (process_stream lines)
  | InvocationOutcome.unexpectedError e _ =>
    { success := false
      output := ""
      error := some ("Unexpected error: " ++ e)
      return_code := -1 }

/-- The event that one stdout line contributes to `events`: lines whose
stripped text parses as a JSON object yield exactly the parsed event
(whatever its `type`, including `"thinking"`); malformed lines and valid
non-object JSON lines yield nothing. -/
def lineObjEvent (l : String) : Option StreamEvent :=
  match pyJsonLoads (pyStrip l) with
  | some (JsonValue.obj kvs) =>
    some
      { event_type := pyDictGet kvs "type" (JsonValue.str "unknown")
        subtype := pyDictGet kvs "subtype" JsonValue.null
        data := kvs }
  | _ => none

/-- The object members of one stdout line when it is a `system`/`init` event,
and nothing otherwise. -/
def lineInitData (l : String) : Option (List (String × JsonValue)) :=
  match pyJsonLoads (pyStrip l) with
  | some (JsonValue.obj kvs) =>
    if (pyDictGet kvs "type" (JsonValue.str "unknown")).isStrEq "system" &&
        (pyDictGet kvs "subtype" JsonValue.null).isStrEq "init" then some kvs
    else none
  | _ => none

/-- The `session_id` carried by the last `system`/`init` event of the stream
(`.null`, i.e. Python `None`, when there is none or the key is absent). -/
def lastInitSession (lines : List String) : JsonValue :=
  match (lines.filterMap lineInitData).getLast? with
  | some kvs => pyDictGet kvs "session_id" JsonValue.null
  | none => JsonValue.null

theorem findSomeNoneOfAll {α β : Type} (f : α → Option β) :
    ∀ l : List α, (∀ a ∈ l, f a = none) → l.findSome? f = none
  | [], _ => rfl
  | a :: t, h => by
    have ha := h a (List.mem_cons_self a t)
    have ht := findSomeNoneOfAll f t (fun x hx => h x (List.mem_cons_of_mem a hx))
    simp [List.findSome?_cons, ha, ht]

theorem findSomeSomeMem {α β : Type} (f : α → Option β) :
    ∀ (l : List α) (b : β), l.findSome? f = some b → ∃ a ∈ l, f a = some b
  | [], b, h => by simp [List.findSome?] at h
  | a :: t, b, h => by
    cases hfa : f a with
    | some v =>
      rw [List.findSome?_cons, hfa] at h
      simp at h
      exact ⟨a, List.mem_cons_self a t, by rw [hfa, h]⟩
    | none =>
      rw [List.findSome?_cons, hfa] at h
      obtain ⟨x, hx, hfx⟩ := findSomeSomeMem f t b h
      exact ⟨x, List.mem_cons_of_mem a hx, hfx⟩

theorem dropWhileNilAll {α : Type} (p : α → Bool) (l : List α)
    (h : l.dropWhile p = []) : ∀ a ∈ l, p a = true := by
  simpa using List.dropWhile_eq_nil_iff.mp h

theorem dropWhileAllNil {α : Type} (p : α → Bool) (l : List α)
    (h : ∀ a ∈ l, p a = true) : l.dropWhile p = [] := by
  exact List.dropWhile_eq_nil_iff.mpr (by simpa using h)

theorem takeWhileMemPred {α : Type} (p : α → Bool) :
    ∀ l : List α, ∀ a ∈ l.takeWhile p, p a = true
  | [], a, ha => absurd ha (List.not_mem_nil a)
  | x :: t, a, ha => by
    rw [List.takeWhile_cons] at ha
    by_cases hx : p x = true
    · simp only [hx, if_true] at ha
      rcases List.mem_cons.mp ha with rfl | ht
      · exact hx
      · exact takeWhileMemPred p t a ht
    · simp [hx] at ha

theorem stripListNilAll (cs : List Char) (h : stripList cs = []) :
    ∀ c ∈ cs, pyWsChar c = true := by
  unfold stripList at h
  have h1 : (cs.dropWhile pyWsChar).reverse.dropWhile pyWsChar = [] :=
    List.reverse_eq_nil_iff.mp h
  have h2 : ∀ c ∈ (cs.dropWhile pyWsChar).reverse, pyWsChar c = true :=
    dropWhileNilAll pyWsChar _ h1
  have h3 : ∀ c ∈ cs.dropWhile pyWsChar, pyWsChar c = true := by
    intro c hc
    exact h2 c (List.mem_reverse.mpr hc)
  intro c hc
  rw [← List.takeWhile_append_dropWhile (p := pyWsChar) (l := cs)] at hc
  rcases List.mem_append.mp hc with ht | hd
  · exact takeWhileMemPred pyWsChar cs c ht
  · exact h3 c hd

theorem stripListFixed (x y : Char) (body : List Char)
    (hx : pyWsChar x = false) (hy : pyWsChar y = false) :
    stripList (x :: (body ++ [y])) = x :: (body ++ [y]) := by
  unfold stripList
  rw [List.dropWhile_cons]
  simp only [hx, Bool.false_eq_true, if_false]
  have hrev : (x :: (body ++ [y])).reverse = y :: (body.reverse ++ [x]) := by
    simp [List.reverse_cons, List.reverse_append]
  rw [hrev, List.dropWhile_cons]
  simp only [hy, Bool.false_eq_true, if_false]
  rw [← hrev, List.reverse_reverse]

theorem parseValWsNone : ∀ (fuel : Nat) (cs : List Char),
    (∀ c ∈ cs, pyWsChar c = true) → parseVal fuel cs = none
  | 0, _, _ => rfl
  | Nat.succ fuel, cs, h => by
    have hd : cs.dropWhile pyWsChar = [] := dropWhileAllNil _ cs h
    simp [parseVal, hd]

theorem loadsSomeStripNe (s : String) (h : (pyJsonLoads s).isSome = true) :
    stripList s.data ≠ [] := by
  intro hnil
  have hall := stripListNilAll s.data hnil
  have hparse := parseValWsNone (2 * s.data.length + 8) s.data hall
  rw [pyJsonLoads, hparse] at h
  simp at h

theorem tierJsonBlocksNeNil (cs : List Char) (s : String)
    (h : tierJsonBlocks cs = some s) : s.data ≠ [] := by
  unfold tierJsonBlocks at h
  split at h
  · split at h
    · rename_i g heq hv
      cases h
      exact loadsSomeStripNe _ hv
    · exact absurd h (by simp)
  · exact absurd h (by simp)

theorem stripStripNe (m : List Char)
    (hv : (pyJsonLoads (String.mk (stripList m))).isSome = true) :
    stripList m ≠ [] := by
  intro hnil
  have hne := loadsSomeStripNe (String.mk (stripList m)) hv
  apply hne
  show stripList (stripList m) = []
  rw [hnil]
  rfl

theorem tierCodeBlocksNeNil (cs : List Char) (s : String)
    (h : tierCodeBlocks cs = some s) : s.data ≠ [] := by
  unfold tierCodeBlocks at h
  obtain ⟨m, _, hm⟩ := findSomeSomeMem _ _ _ h
  split at hm
  · rename_i heq
    cases hm
    exact stripStripNe m (by rw [heq]; rfl)
  · rename_i heq
    cases hm
    exact stripStripNe m (by rw [heq]; rfl)
  · exact absurd hm (by simp)

theorem tierObjectsNeNil (cs : List Char) (s : String)
    (h : tierObjects cs = some s) : s.data ≠ [] := by
  unfold tierObjects at h
  obtain ⟨m, _, hm⟩ := findSomeSomeMem _ _ _ h
  split at hm
  · rename_i hv
    cases hm
    exact loadsSomeStripNe (String.mk m) hv
  · exact absurd hm (by simp)

theorem tierArraysNeNil (cs : List Char) (s : String)
    (h : tierArrays cs = some s) : s.data ≠ [] := by
  unfold tierArrays at h
  obtain ⟨m, _, hm⟩ := findSomeSomeMem _ _ _ h
  split at hm
  · rename_i hv
    cases hm
    exact loadsSomeStripNe (String.mk m) hv
  · exact absurd hm (by simp)

theorem extractSomeNeNil (t s : String)
    (h : extract_final_json t = some s) : s.data ≠ [] := by
  unfold extract_final_json at h
  split at h
  · exact absurd h (by simp)
  · split at h
    · rename_i r h1
      cases h
      exact tierJsonBlocksNeNil t.data s h1
    · split at h
      · rename_i r h2
        cases h
        exact tierCodeBlocksNeNil t.data s h2
      · split at h
        · rename_i r h3
          cases h
          exact tierObjectsNeNil t.data s h3
        · exact tierArraysNeNil t.data s h

theorem outputToReturnEqGetD (full : String) :
    outputToReturn full = (extract_final_json full).getD full := by
  unfold outputToReturn
  cases h : extract_final_json full with
  | none => rfl
  | some s =>
    have hne := extractSomeNeNil full s h
    simp [hne]

theorem matchFenceTailNoneOfNoNl (rest : List Char) (h : '\n' ∉ rest) :
    matchFenceTail rest = none := by
  unfold matchFenceTail
  apply findSomeNoneOfAll
  intro k _
  have hk : ¬(rest.get? k = some '\n') := by
    intro hget
    exact h (List.get?_mem hget)
  rw [if_neg hk]

theorem matchJsonFenceAtNoneOfNoNl (cs : List Char) (h : '\n' ∉ cs) :
    matchJsonFenceAt cs = none := by
  unfold matchJsonFenceAt
  split
  · have hdrop : '\n' ∉ cs.drop 7 := fun hm => h (List.drop_subset 7 cs hm)
    rw [matchFenceTailNoneOfNoNl _ hdrop]
    rfl
  · rfl

theorem matchPlainFenceAtNoneOfNoNl (cs : List Char) (h : '\n' ∉ cs) :
    matchPlainFenceAt cs = none := by
  unfold matchPlainFenceAt
  split
  · have hdrop : '\n' ∉ cs.drop 3 := fun hm => h (List.drop_subset 3 cs hm)
    rw [matchFenceTailNoneOfNoNl _ hdrop]
    rfl
  · rfl

theorem findallAuxNilInput (matchAt : List Char → Option (List Char × Nat)) :
    ∀ fuel, findallAux matchAt fuel [] = []
  | 0 => rfl
  | Nat.succ _ => rfl

theorem findallAuxNoNl (matchAt : List Char → Option (List Char × Nat))
    (hm : ∀ cs, '\n' ∉ cs → matchAt cs = none) :
    ∀ (fuel : Nat) (cs : List Char), '\n' ∉ cs → findallAux matchAt fuel cs = []
  | 0, _, _ => rfl
  | Nat.succ _, [], _ => rfl
  | Nat.succ fuel, c :: t, h => by
    have hm' := hm (c :: t) h
    simp only [findallAux, hm']
    exact findallAuxNoNl matchAt hm fuel t (fun ht => h (List.mem_cons_of_mem c ht))

theorem jsonBlockFindallNoNl (cs : List Char) (h : '\n' ∉ cs) :
    jsonBlockFindall cs = [] :=
  findallAuxNoNl _ matchJsonFenceAtNoneOfNoNl cs.length cs h

theorem codeBlockFindallNoNl (cs : List Char) (h : '\n' ∉ cs) :
    codeBlockFindall cs = [] :=
  findallAuxNoNl _ matchPlainFenceAtNoneOfNoNl cs.length cs h

theorem delimScanFlat (op cl : Char) (hne : cl ≠ op) :
    ∀ body : List Char, (∀ x ∈ body, x ≠ op ∧ x ≠ cl) →
      delimScan op cl (body ++ [cl]) false = some (body.length + 1)
  | [], _ => by simp [delimScan, hne]
  | y :: t, h => by
    have hy := h y (List.mem_cons_self y t)
    have ih := delimScanFlat op cl hne t (fun x hx => h x (List.mem_cons_of_mem y hx))
    simp [delimScan, hy.1, hy.2, ih]

theorem matchDelimFlat (op cl : Char) (hne : cl ≠ op) (body : List Char)
    (h : ∀ x ∈ body, x ≠ op ∧ x ≠ cl) :
    matchDelimAt op cl (op :: (body ++ [cl])) =
      some (op :: (body ++ [cl]), body.length + 2) := by
  have hscan := delimScanFlat op cl hne body h
  have hlen : (op :: (body ++ [cl])).length = body.length + 2 := by simp
  have htake : (op :: (body ++ [cl])).take (body.length + 1 + 1) = op :: (body ++ [cl]) := by
    rw [← hlen, List.take_length]
  show (if op = op then
          (delimScan op cl (body ++ [cl]) false).map
            (fun n => ((op :: (body ++ [cl])).take (n + 1), n + 1))
        else none) =
      some (op :: (body ++ [cl]), body.length + 2)
  rw [if_pos rfl, hscan]
  simp [htake]

theorem findallAuxWhole (matchAt : List Char → Option (List Char × Nat))
    (c : Char) (t : List Char)
    (hm : matchAt (c :: t) = some (c :: t, (c :: t).length)) (fuel : Nat) :
    findallAux matchAt (Nat.succ fuel) (c :: t) = [c :: t] := by
  simp only [findallAux, hm]
  have h1 : max (c :: t).length 1 = (c :: t).length := by
    simp [List.length_cons]
  rw [h1, List.drop_length, findallAuxNilInput]

theorem objectFindallFlat (body : List Char)
    (h : ∀ x ∈ body, x ≠ '\x7b' ∧ x ≠ '\x7d') :
    objectFindall ('\x7b' :: (body ++ ['\x7d'])) = ['\x7b' :: (body ++ ['\x7d'])] := by
  unfold objectFindall pyFindall
  have hm := matchDelimFlat '\x7b' '\x7d' (by decide) body h
  have hlen : ('\x7b' :: (body ++ ['\x7d'])).length = Nat.succ (body.length + 1) := by simp
  rw [hlen]
  apply findallAuxWhole
  rw [hm, hlen]

theorem charMemConsAppendSingle (a x y : Char) (body : List Char)
    (h : a ∈ x :: (body ++ [y])) : a = x ∨ a ∈ body ∨ a = y := by
  rcases List.mem_cons.mp h with h | h
  · exact Or.inl h
  · rcases List.mem_append.mp h with h | h
    · exact Or.inr (Or.inl h)
    · exact Or.inr (Or.inr (List.mem_singleton.mp h))

/-- C5 (amended): `extract_final_json` is idempotent on its own output when
that output is a newline-free JSON object without nested braces.  (The claim
as stated over all outputs is refuted by `c5_idempotence_counterexample`.) -/
theorem c5_idempotent_on_flat_object_output (x s : String) (body : List Char)
    (h1 : extract_final_json x = some s)
    (h2 : s.data = '\x7b' :: (body ++ ['\x7d']))
    (h3 : body.all (fun c => !(c = '\x7b' || c = '\x7d' || c = '\n')) = true)
    (h4 : (pyJsonLoads s).isSome = true) :
    extract_final_json s = some s := by
  obtain ⟨cs⟩ := s
  have h2' : cs = '\x7b' :: (body ++ ['\x7d']) := h2
  subst h2'
  have hb : ∀ c ∈ body, c ≠ '\x7b' ∧ c ≠ '\x7d' ∧ c ≠ '\n' := by
    intro c hc
    have hcb := List.all_eq_true.mp h3 c hc
    simp only [Bool.not_eq_true', Bool.or_eq_false_iff, decide_eq_false_iff_not] at hcb
    exact ⟨hcb.1.1, hcb.1.2, hcb.2⟩
  have hnl : '\n' ∉ '\x7b' :: (body ++ ['\x7d']) := by
    intro hm
    rcases charMemConsAppendSingle '\n' '\x7b' '\x7d' body hm with h | h | h
    · exact absurd h (by decide)
    · exact (hb '\n' h).2.2 rfl
    · exact absurd h (by decide)
  have t1 : tierJsonBlocks ('\x7b' :: (body ++ ['\x7d'])) = none := by
    unfold tierJsonBlocks
    rw [jsonBlockFindallNoNl _ hnl]
    rfl
  have t2 : tierCodeBlocks ('\x7b' :: (body ++ ['\x7d'])) = none := by
    unfold tierCodeBlocks
    rw [codeBlockFindallNoNl _ hnl]
    rfl
  have hstrip : stripList ('\x7b' :: (body ++ ['\x7d'])) = '\x7b' :: (body ++ ['\x7d']) :=
    stripListFixed '\x7b' '\x7d' body (by decide) (by decide)
  have t3 : tierObjects ('\x7b' :: (body ++ ['\x7d'])) =
      some (String.mk ('\x7b' :: (body ++ ['\x7d']))) := by
    unfold tierObjects
    rw [objectFindallFlat body (fun xc hxc => ⟨(hb xc hxc).1, (hb xc hxc).2.1⟩)]
    simp only [List.reverse_cons, List.reverse_nil, List.nil_append, List.findSome?_cons,
      List.findSome?_nil, h4, if_true, hstrip]
  unfold extract_final_json
  simp only [t1, t2, t3]
  simp

theorem isStrEqElim {v : JsonValue} {a : String} (h : v.isStrEq a = true) :
    v = JsonValue.str a := by
  cases v with
  | str t => simp only [JsonValue.isStrEq, beq_iff_eq] at h; rw [h]
  | null => simp [JsonValue.isStrEq] at h
  | bool b => simp [JsonValue.isStrEq] at h
  | num q => simp [JsonValue.isStrEq] at h
  | arr xs => simp [JsonValue.isStrEq] at h
  | obj kvs => simp [JsonValue.isStrEq] at h

theorem pyJsonLoadsNilData (s : String) (h : s.data = []) : pyJsonLoads s = none := by
  unfold pyJsonLoads
  rw [h]
  rfl

theorem stepLineEvents (st : StreamState) (l : String) :
    (stepLine st l).events = st.events ++ (lineObjEvent l).toList := by
  unfold stepLine lineObjEvent
  by_cases hls : (pyStrip l).data = []
  · rw [if_pos hls, pyJsonLoadsNilData _ hls]
    simp
  · rw [if_neg hls]
    cases hload : pyJsonLoads (pyStrip l) with
    | none => simp [StreamEvent.from_json, hload]
    | some v =>
      cases v with
      | obj kvs =>
        simp only [StreamEvent.from_json, hload]
        split_ifs <;> simp
      | null => simp [StreamEvent.from_json, hload]
      | bool b => simp [StreamEvent.from_json, hload]
      | num q => simp [StreamEvent.from_json, hload]
      | str t => simp [StreamEvent.from_json, hload]
      | arr xs => simp [StreamEvent.from_json, hload]

theorem foldlEvents (lines : List String) :
    ∀ st : StreamState,
      (lines.foldl stepLine st).events = st.events ++ lines.filterMap lineObjEvent := by
  induction lines with
  | nil => intro st; simp
  | cons l t ih =>
    intro st
    rw [List.foldl_cons, ih (stepLine st l), stepLineEvents st l, List.filterMap_cons]
    cases lineObjEvent l <;> simp

theorem stepLineSession (st : StreamState) (l : String) :
    (stepLine st l).sessionId =
      match lineInitData l with
      | some kvs => pyDictGet kvs "session_id" JsonValue.null
      | none => st.sessionId := by
  unfold stepLine lineInitData
  by_cases hls : (pyStrip l).data = []
  · rw [if_pos hls, pyJsonLoadsNilData _ hls]
  · rw [if_neg hls]
    cases hload : pyJsonLoads (pyStrip l) with
    | none => simp [StreamEvent.from_json, hload]
    | some v =>
      cases v with
      | obj kvs =>
        simp only [StreamEvent.from_json, hload]
        by_cases hc : ((pyDictGet kvs "type" (JsonValue.str "unknown")).isStrEq "system" &&
            (pyDictGet kvs "subtype" JsonValue.null).isStrEq "init") = true
        · have hraise :
              logEventRaises
                { event_type := pyDictGet kvs "type" (JsonValue.str "unknown")
                  subtype := pyDictGet kvs "subtype" JsonValue.null
                  data := kvs } = false := by
            unfold logEventRaises
            simp only [hc, if_true]
          simp only [hraise, hc, Bool.false_eq_true, if_false, if_true]
          have hsys := isStrEqElim (Bool.and_elim_left hc)
          simp [hsys, JsonValue.isStrEq]
        · simp only [hc, Bool.false_eq_true, if_false]
          cases hraise : logEventRaises
              { event_type := pyDictGet kvs "type" (JsonValue.str "unknown")
                subtype := pyDictGet kvs "subtype" JsonValue.null
                data := kvs } <;>
            split_ifs <;> simp_all
      | null => simp [StreamEvent.from_json, hload]
      | bool b => simp [StreamEvent.from_json, hload]
      | num q => simp [StreamEvent.from_json, hload]
      | str t => simp [StreamEvent.from_json, hload]
      | arr xs => simp [StreamEvent.from_json, hload]

theorem getLastConsIsSome {α : Type} (a : α) : ∀ r : List α, ∃ x, (a :: r).getLast? = some x
  | [] => ⟨a, rfl⟩
  | b :: r' => by
    obtain ⟨x, hx⟩ := getLastConsIsSome b r'
    exact ⟨x, by rw [List.getLast?_cons_cons]; exact hx⟩

theorem foldlSession (lines : List String) :
    ∀ st : StreamState,
      (lines.foldl stepLine st).sessionId =
        match (lines.filterMap lineInitData).getLast? with
        | some kvs => pyDictGet kvs "session_id" JsonValue.null
        | none => st.sessionId := by
  induction lines with
  | nil => intro st; rfl
  | cons l t ih =>
    intro st
    rw [List.foldl_cons, ih (stepLine st l), List.filterMap_cons]
    cases hl : lineInitData l with
    | none =>
      have hstep : (stepLine st l).sessionId = st.sessionId := by
        rw [stepLineSession st l, hl]
      cases hft : t.filterMap lineInitData with
      | nil => simp [hstep]
      | cons a r =>
        obtain ⟨x, hx⟩ := getLastConsIsSome a r
        simp [hx]
    | some kvs =>
      have hstep : (stepLine st l).sessionId = pyDictGet kvs "session_id" JsonValue.null := by
        rw [stepLineSession st l, hl]
      cases hft : t.filterMap lineInitData with
      | nil => simp [hstep]
      | cons a r =>
        obtain ⟨x, hx⟩ := getLastConsIsSome a r
        simp [hx, List.getLast?_cons_cons]

set_option maxRecDepth 200000 in
/-- C1: on the completed (non-timeout, non-exception) path, the result's
`success` equals `exit code == 0 OR (benign transport-error signature in
stderr AND stripped output longer than the useful-output threshold)`; in
particular an exit-code-1 run with the signature succeeds exactly when its
output is long enough (101 `x`s versus `"ok"`). -/
theorem c1_success_classification :
    (∀ (rc : Int) (lines errs : List String) (se : Option String),
        (invoke_cursor_agent (InvocationOutcome.completed rc lines errs se)).success =
          (decide (rc = 0) ||
            (isPrematureClose (pyStrip (pyJoin errs)) &&
              hasUsefulOutput
                (invoke_cursor_agent (InvocationOutcome.completed rc lines errs se)).output))) ∧
    (invoke_cursor_agent (InvocationOutcome.completed 1
      ["\x7b\"type\": \"assistant\", \"message\": \x7b\"content\": [\x7b\"type\": \"text\", \"text\": \"" ++
        String.mk (List.replicate 101 'x') ++ "\"\x7d]\x7d\x7d"]
      ["Premature close"] none)).success = true ∧
    (invoke_cursor_agent (InvocationOutcome.completed 1
      ["\x7b\"type\": \"assistant\", \"message\": \x7b\"content\": [\x7b\"type\": \"text\", \"text\": \"ok\"\x7d]\x7d\x7d"]
      ["Premature close"] none)).success = false := by
  refine ⟨?_, by rfl, by rfl⟩
  intro rc lines errs se
  simp only [invoke_cursor_agent, buildResult]
  split
  · rename_i h
    rcases h with h | ⟨hp, hu⟩
    · simp [h]
    · simp [hp, hu]
  · rename_i h
    push_neg at h
    obtain ⟨h1, h2⟩ := h
    simp only [decide_eq_false h1, Bool.false_or]
    by_cases hp : isPrematureClose (pyStrip (pyJoin errs)) = true
    · have hu := h2 hp
      simp [hp, Bool.eq_false_iff.mpr hu]
    · simp [Bool.eq_false_iff.mpr hp]

/-- C2: on the timeout path the result is a failure with `return_code == -1`,
an error naming the timeout, the events and session id accumulated before the
deadline, and `output` equal to `extract_final_json` of the assistant text
accumulated before the deadline with fallback to that raw text (the embedding
of the handler as a total function reflects that the exception never
propagates). -/
theorem c2_timeout_result_fields :
    ∀ (t : String) (lines : List String),
      (invoke_cursor_agent (InvocationOutcome.timedOut t lines)).success = false ∧
      (invoke_cursor_agent (InvocationOutcome.timedOut t lines)).return_code = -1 ∧
      (invoke_cursor_agent (InvocationOutcome.timedOut t lines)).error =
        some ("Execution timed out after " ++ t ++ " seconds") ∧
      (invoke_cursor_agent (InvocationOutcome.timedOut t lines)).output =
        (extract_final_json (pyJoin (process_stream lines).msgs)).getD
          (pyJoin (process_stream lines).msgs) ∧
      (invoke_cursor_agent (InvocationOutcome.timedOut t lines)).events =
        (process_stream lines).events := by
  intro t lines
  refine ⟨rfl, rfl, rfl, ?_, rfl⟩
  show outputToReturn (pyJoin (process_stream lines).msgs) = _
  exact outputToReturnEqGetD _

/-- C7: any unexpected exception reaching the outermost handler is converted
into a returned failure result carrying the exception text, with the sentinel
return code; `invoke_cursor_agent` is total over all modelled outcomes, so no
exception escapes to the caller. -/
theorem c7_no_exception_escapes :
    ∀ (e : String) (lines : List String),
      (invoke_cursor_agent (InvocationOutcome.unexpectedError e lines)).success = false ∧
      (invoke_cursor_agent (InvocationOutcome.unexpectedError e lines)).return_code = -1 ∧
      (invoke_cursor_agent (InvocationOutcome.unexpectedError e lines)).error =
        some ("Unexpected error: " ++ e) :=
  fun _ _ => ⟨rfl, rfl, rfl⟩

/-- C9: the timeout result always has `duration_ms` at its dataclass default
(Python `None`), even when a `result` event carrying `duration_ms` streamed
before the deadline, while events and session id are preserved. -/
theorem c9_timeout_duration_none :
    (∀ (t : String) (lines : List String),
        (invoke_cursor_agent (InvocationOutcome.timedOut t lines)).duration_ms =
          JsonValue.null ∧
        (invoke_cursor_agent (InvocationOutcome.timedOut t lines)).events =
          (process_stream lines).events ∧
        (invoke_cursor_agent (InvocationOutcome.timedOut t lines)).session_id =
          (process_stream lines).sessionId ∧
        (invoke_cursor_agent (InvocationOutcome.timedOut t lines)).output =
          outputToReturn (pyJoin (process_stream lines).msgs)) ∧
    (process_stream ["\x7b\"type\": \"result\", \"duration_ms\": 1234\x7d"]).durationMs =
      JsonValue.num "1234" ∧
    (invoke_cursor_agent (InvocationOutcome.timedOut "5.0"
      ["\x7b\"type\": \"result\", \"duration_ms\": 1234\x7d"])).duration_ms = JsonValue.null :=
  ⟨fun _ _ => ⟨rfl, rfl, rfl, rfl⟩, rfl, rfl⟩

/-- C10: the outermost exception handler builds its failure result from the
exception alone — `output` empty, `events` empty, `session_id` and
`duration_ms` Python `None` — discarding everything accumulated from the
stream, whatever lines had already been consumed. -/
theorem c10_unexpected_error_discards_state :
    ∀ (e : String) (lines : List String),
      (invoke_cursor_agent (InvocationOutcome.unexpectedError e lines)).output = "" ∧
      (invoke_cursor_agent (InvocationOutcome.unexpectedError e lines)).events = [] ∧
      (invoke_cursor_agent (InvocationOutcome.unexpectedError e lines)).session_id =
        JsonValue.null ∧
      (invoke_cursor_agent (InvocationOutcome.unexpectedError e lines)).duration_ms =
        JsonValue.null ∧
      (invoke_cursor_agent (InvocationOutcome.unexpectedError e lines)).success = false :=
  fun _ _ => ⟨rfl, rfl, rfl, rfl, rfl⟩

/-- C3 (amended): the final events list holds exactly one `StreamEvent` per
stdout line whose stripped text parses as a JSON object — `thinking`-typed
lines included — in arrival order; malformed lines and valid-JSON non-object
lines are dropped.  (The claim's exclusion of `thinking` events, and its
count over all valid-JSON lines, are refuted by `c3_thinking_counterexample`.) -/
theorem c3_events_per_object_line :
    ∀ lines : List String, (process_stream lines).events = lines.filterMap lineObjEvent := by
  intro lines
  unfold process_stream
  rw [foldlEvents]
  rfl

/-- C3 counterexample: a valid-JSON `thinking` line is appended to `events`
(the claim says such events are never appended), and the valid-JSON
non-object line `5` produces no event (the claim counts it). -/
theorem c3_thinking_counterexample :
    (process_stream ["\x7b\"type\": \"thinking\", \"text\": \"hmm\"\x7d"]).events =
      [{ event_type := JsonValue.str "thinking", subtype := JsonValue.null,
         data := [("type", JsonValue.str "thinking"), ("text", JsonValue.str "hmm")] }] ∧
    (process_stream ["5"]).events = [] :=
  ⟨rfl, rfl⟩

/-- C8 (amended): the resulting `session_id` equals the `session_id` value of
the last `system`/`init` event of the stream (Python `None` when no such
event was observed or the key is absent); events of any other type or subtype
never change it.  (That it is the first such event is refuted by
`c8_first_init_counterexample`.) -/
theorem c8_session_id_last_init :
    ∀ lines : List String, (process_stream lines).sessionId = lastInitSession lines := by
  intro lines
  unfold process_stream lastInitSession
  rw [foldlSession]
  cases hg : (lines.filterMap lineInitData).getLast? with
  | some kvs => rfl
  | none => rfl

/-- C8 counterexample: with two `system`/`init` events carrying session ids
`"A"` then `"B"`, the result holds `"B"` — the value of the last init event —
while the first init event's value was `"A"`. -/
theorem c8_first_init_counterexample :
    (process_stream
      ["\x7b\"type\": \"system\", \"subtype\": \"init\", \"session_id\": \"A\"\x7d",
       "\x7b\"type\": \"system\", \"subtype\": \"init\", \"session_id\": \"B\"\x7d"]).sessionId =
      JsonValue.str "B" ∧
    (process_stream
      ["\x7b\"type\": \"system\", \"subtype\": \"init\", \"session_id\": \"A\"\x7d"]).sessionId =
      JsonValue.str "A" :=
  ⟨rfl, rfl⟩

/-- C4 (amended): for every line decoding to a JSON object without a `"type"`
key, `from_json` returns (never raises) an event with `event_type`
`"unknown"`, `subtype` as stored (Python `None` when absent), and `data` the
entire decoded object.  (The claim's extension to non-object JSON values is
refuted by `c4_nonobject_counterexample`: there `data.get` raises
`AttributeError`, which `from_json` does not catch.) -/
theorem c4_from_json_object_missing_type :
    ∀ (line : String) (kvs : List (String × JsonValue)),
      pyJsonLoads line = some (JsonValue.obj kvs) →
      pyHasKey kvs "type" = false →
      StreamEvent.from_json line =
        Except.ok (some
          { event_type := JsonValue.str "unknown"
            subtype := pyDictGet kvs "subtype" JsonValue.null
            data := kvs }) := by
  intro line kvs hload hkey
  unfold StreamEvent.from_json
  have hget : pyDictGet kvs "type" (JsonValue.str "unknown") = JsonValue.str "unknown" := by
    unfold pyDictGet
    have hfil : kvs.filter (fun p => p.1 == "type") = [] := by
      rw [List.filter_eq_nil_iff]
      intro p hp
      simp only [pyHasKey, List.any_eq_false] at hkey
      exact hkey p hp
    rw [hfil]
    rfl
  simp only [hload, hget]

/-- C4 counterexample: lines that are valid JSON but not objects make
`from_json` raise `AttributeError` (`data.get` on an `int`, `list` or `str`),
instead of returning an `"unknown"`-typed event as claimed. -/
theorem c4_nonobject_counterexample :
    StreamEvent.from_json "5" = Except.error "AttributeError" ∧
    StreamEvent.from_json "[1, 2]" = Except.error "AttributeError" ∧
    StreamEvent.from_json "\"hi\"" = Except.error "AttributeError" :=
  ⟨rfl, rfl, rfl⟩

/-- C4 witness: `c4_from_json_object_missing_type` applied to the concrete
object line without a `type` key. -/
theorem c4_from_json_witness :
    pyJsonLoads "\x7b\"a\": 1\x7d" = some (JsonValue.obj [("a", JsonValue.num "1")]) ∧
    pyHasKey [("a", JsonValue.num "1")] "type" = false ∧
    StreamEvent.from_json "\x7b\"a\": 1\x7d" =
      Except.ok (some
        { event_type := JsonValue.str "unknown", subtype := JsonValue.null,
          data := [("a", JsonValue.num "1")] }) :=
  ⟨rfl, rfl, by
    have h := c4_from_json_object_missing_type "\x7b\"a\": 1\x7d"
      [("a", JsonValue.num "1")] rfl rfl
    rw [h]
    rfl⟩

set_option maxRecDepth 100000 in
/-- C5 counterexample: idempotence fails on scalar extractions (a fenced `5`
extracts to `"5"`, which re-extracts to nothing) and on doubly nested objects
(the brace pattern tolerates only one nesting level, so the re-extraction
returns an inner object instead of the input). -/
theorem c5_idempotence_counterexample :
    extract_final_json "```json\n5\n```" = some "5" ∧
    extract_final_json "5" = none ∧
    extract_final_json "```json\n\x7b\"a\": \x7b\"b\": \x7b\"c\": 1\x7d\x7d\x7d\n```" =
      some "\x7b\"a\": \x7b\"b\": \x7b\"c\": 1\x7d\x7d\x7d" ∧
    extract_final_json "\x7b\"a\": \x7b\"b\": \x7b\"c\": 1\x7d\x7d\x7d" =
      some "\x7b\"b\": \x7b\"c\": 1\x7d\x7d" :=
  ⟨rfl, rfl, rfl, rfl⟩

set_option maxRecDepth 100000 in
/-- C5 witness: `c5_idempotent_on_flat_object_output` applied to a concrete
fenced flat object: its extraction re-extracts to itself. -/
theorem c5_idempotence_witness :
    extract_final_json "```json\n\x7b\"a\": 1\x7d\n```" = some "\x7b\"a\": 1\x7d" ∧
    extract_final_json "\x7b\"a\": 1\x7d" = some "\x7b\"a\": 1\x7d" :=
  ⟨rfl,
    c5_idempotent_on_flat_object_output "```json\n\x7b\"a\": 1\x7d\n```" "\x7b\"a\": 1\x7d"
      ("\"a\": 1".data) rfl rfl (by decide) rfl⟩

/-- C6 (amended): whenever the text contains json-labeled fenced blocks and
the content of the last one parses, `extract_final_json` returns exactly that
content, stripped, before any lower tier runs.  (When the last labeled block
does not parse, earlier labeled blocks are not tried — the labeled tier is
abandoned for the lower tiers, refuting the claim's "skip the unparseable
ones" reading; see `c6_labeled_block_counterexample`.) -/
theorem c6_last_labeled_block_wins :
    ∀ (text : String) (g : List Char) (gs : List (List Char)),
      jsonBlockFindall text.data = gs ++ [g] →
      (pyJsonLoads (String.mk g)).isSome = true →
      extract_final_json text = some (String.mk (stripList g)) := by
  intro text g gs hfa hv
  have hne : text.data ≠ [] := by
    intro h0
    rw [h0] at hfa
    have h1 : ([] : List (List Char)) = gs ++ [g] := hfa
    exact absurd h1.symm (by simp)
  unfold extract_final_json tierJsonBlocks
  rw [if_neg hne]
  simp only [hfa, List.getLast?_concat, hv, if_true]

set_option maxRecDepth 100000 in
/-- C6 counterexample: a text whose first labeled block holds the parseable
object over key `a` and whose last labeled block does not parse.  The claim
predicts the first block's content; the code abandons the labeled tier and
tier 3 returns the brace-pattern object over key `b` instead. -/
theorem c6_labeled_block_counterexample :
    jsonBlockFindall
        ("```json\n\x7b\"a\": 1\x7d\n```\nmiddle\n```json\n\x7b\"b\": 2\x7d x\n```".data) =
      ["\x7b\"a\": 1\x7d".data, "\x7b\"b\": 2\x7d x".data] ∧
    (pyJsonLoads "\x7b\"a\": 1\x7d").isSome = true ∧
    (pyJsonLoads "\x7b\"b\": 2\x7d x").isSome = false ∧
    extract_final_json "```json\n\x7b\"a\": 1\x7d\n```\nmiddle\n```json\n\x7b\"b\": 2\x7d x\n```" =
      some "\x7b\"b\": 2\x7d" :=
  ⟨rfl, rfl, rfl, rfl⟩

set_option maxRecDepth 100000 in
/-- C6 witness: `c6_last_labeled_block_wins` applied to a concrete text with
one parseable labeled block. -/
theorem c6_last_labeled_block_witness :
    jsonBlockFindall ("```json\n\x7b\"a\": 1\x7d\n```".data) = [] ++ ["\x7b\"a\": 1\x7d".data] ∧
    extract_final_json "```json\n\x7b\"a\": 1\x7d\n```" = some "\x7b\"a\": 1\x7d" :=
  ⟨rfl, by
    have h := c6_last_labeled_block_wins "```json\n\x7b\"a\": 1\x7d\n```"
      ("\x7b\"a\": 1\x7d".data) [] rfl rfl
    rw [h]
    rfl⟩
